import Mathlib

/-!
# Verification of the repo-merger session (src/repo-merger.py)

Shallow embedding of the merge-orchestration script.  External processes
(git, git-filter-repo) are opaque collaborators: each invocation consumes
the next entry of an oracle `W : Nat → CmdResult` giving that process's
exit code, captured standard output and standard error.  Interactive
prompts consume an oracle `A : Nat → String` of operator answers.  The
filesystem is abstracted to the list of existing directories; the two
working areas are tracked by name.  Stateful Python code becomes explicit
state passing over `Sys`; a raised Python exception becomes an `Except`
error carrying the exception's text (the string `str(e)` that the source
inspects), with `SystemExit` kept apart since `except Exception` does not
catch it.  Reporting-only state (rich console rendering, the analytics
table, the log file) is omitted; the trace fields `cmds` and `prompts`
record which external commands ran and which prompts were put to the
operator, in order.
-/

/-- Outcome of one external process: exit code, captured stdout, stderr. -/
structure CmdResult where
  exitCode : Int
  stdout : String
  stderr : String
deriving DecidableEq

/-- Python `needle in haystack` on strings, via character lists:
prefix test. -/
def charListIsPre : List Char → List Char → Bool
  | [], _ => true
  | _ :: _, [] => false
  | a :: as, b :: bs => a == b && charListIsPre as bs

/-- Python `needle in haystack` on strings: some suffix starts with it. -/
def charListInfix (needle : List Char) : List Char → Bool
  | [] => needle.isEmpty
  | c :: t => charListIsPre needle (c :: t) || charListInfix needle t

def strContains (haystack needle : String) : Bool :=
  charListInfix needle.data haystack.data

/-- One-sided whitespace trim of a character list. -/
def dropSpace (l : List Char) : List Char := l.dropWhile Char.isWhitespace

/-- Python `str.strip()`: remove surrounding whitespace. -/
def pyStrip (s : String) : String := ⟨(dropSpace (dropSpace s.data.reverse).reverse)⟩

/-- Python `str.lower()`. -/
def pyLower (s : String) : String := ⟨s.data.map Char.toLower⟩

def splitChAux (c : Char) : List Char → List Char → List String
  | [], acc => [⟨acc.reverse⟩]
  | x :: xs, acc =>
    if x = c then ⟨acc.reverse⟩ :: splitChAux c xs []
    else splitChAux c xs (x :: acc)

/-- Python `str.split(sep)` for a one-character separator (the source only
splits on `"\n"`, `"/"` and `":"`). -/
def splitCh (c : Char) (s : String) : List String := splitChAux c s.data []

/-- Python `str.splitlines()` restricted to strings with no trailing
newline (the source only applies it to `run_cmd` output, already
stripped): the empty string yields no lines. -/
def pySplitlines (s : String) : List String :=
  if s = "" then [] else splitCh '\n' s

/-- Python string comparison: lexicographic on code points. -/
def charListLe : List Char → List Char → Bool
  | [], _ => true
  | _ :: _, [] => false
  | a :: as, b :: bs =>
    if a.toNat < b.toNat then true
    else if b.toNat < a.toNat then false
    else charListLe as bs

def strLeP (a b : String) : Prop := charListLe a.data b.data = true

instance : DecidableRel strLeP := fun a b => instDecidableEqBool (charListLe a.data b.data) true

/-- Python `sorted(set(xs))` for strings: unique elements in ascending
code-point order. -/
def pySortedSet (l : List String) : List String :=
  List.insertionSort strLeP l.dedup

/-- `line.strip().split("/")[-1]` of src line 102. -/
def pyLastSeg (line : String) : String :=
  (splitCh '/' (pyStrip line)).getLastD ""

/-- Text of the `AttributeError` raised by `result.stderr.strip()` when the
process ran with `live_output=True`: `capture_output` is false then, so
`result.stderr` is Python `None`. -/
def attributeErrorStrip : String := "AttributeError: NoneType object has no attribute strip"

/-- Text of the `FileNotFoundError` raised by `subprocess.run` when the
requested working directory does not exist. -/
def fileNotFound : String := "FileNotFoundError"

/-- Text of the `IndexError` raised by `branches[0]` on an empty list. -/
def indexErrorMsg : String := "list index out of range"

/-- `run_cmd` (src lines 31-50), pure core: given the process outcome,
either the returned string or the text of the raised exception.
On non-zero exit with captured output the source raises
`Exception(f"Command failed: {cmd}")`; with live output the unguarded
`result.stderr.strip()` raises an `AttributeError` first. -/
def runCmd (cmd : String) (live : Bool) (res : CmdResult) : Except String String :=
  if res.exitCode = 0 then
    .ok (pyStrip (if live then "" else res.stdout))
  else if live then .error attributeErrorStrip
  else .error ("Command failed: " ++ cmd)

/-- Session state: existing directories, next oracle indices, and the
ordered traces of executed commands and issued prompts. -/
structure Sys where
  fs : List String
  wIdx : Nat
  aIdx : Nat
  cmds : List String
  prompts : List String
deriving DecidableEq

/-- A raised Python exception: ordinary `Exception` subclasses carry their
text; `SystemExit` (from `exit(1)`) is distinct because `except Exception`
does not catch it. -/
inductive PyErr where
  | exc (msg : String)
  | systemExit (code : Nat)
deriving DecidableEq

deriving instance DecidableEq for Except

/-- State-and-exception computation: the Python control flow. -/
def M (α : Type) : Type := Sys → Except PyErr α × Sys

def mPure {α : Type} (a : α) : M α := fun s => (.ok a, s)

def mBind {α β : Type} (x : M α) (f : α → M β) : M β := fun s =>
  match x s with
  | (.ok a, s') => f a s'
  | (.error e, s') => (.error e, s')

instance : Monad M where
  pure := mPure
  bind := mBind

theorem bind_def {α β : Type} (x : M α) (f : α → M β) : x >>= f = mBind x f := rfl

theorem pure_def {α : Type} (a : α) : (pure a : M α) = mPure a := rfl

def throwExc {α : Type} (msg : String) : M α := fun s => (.error (.exc msg), s)

def throwExit {α : Type} (code : Nat) : M α := fun s => (.error (.systemExit code), s)

/-- `try ... except Exception as e: handler(str(e))`.  `SystemExit` passes. -/
def catchExc {α : Type} (x : M α) (h : String → M α) : M α := fun s =>
  match x s with
  | (.ok a, s') => (.ok a, s')
  | (.error (.exc m), s') => h m s'
  | (.error (.systemExit c), s') => (.error (.systemExit c), s')

/-- `run_cmd` lifted to the session: a missing working directory raises
before the process runs (no oracle entry consumed); otherwise one oracle
entry is consumed and the command is appended to the trace. -/
def runCmdM (W : Nat → CmdResult) (cmd : String) (dir : String) (live : Bool) : M String :=
  fun s =>
    if dir ∈ s.fs then
      let res := W s.wIdx
      let s' : Sys := { s with wIdx := s.wIdx + 1, cmds := s.cmds ++ [cmd] }
      match runCmd cmd live res with
      | .ok out => (.ok out, s')
      | .error m => (.error (.exc m), s')
    else (.error (.exc fileNotFound), s)

/-- `rich.prompt.Prompt.ask` with no default: blocks and returns the
operator's next answer. -/
def promptAskM (A : Nat → String) (q : String) : M String := fun s =>
  (.ok (A s.aIdx), { s with aIdx := s.aIdx + 1, prompts := s.prompts ++ [q] })

/-- `Prompt.ask` with a default: empty operator input selects the default. -/
def promptAskDefaultM (A : Nat → String) (q : String) (dflt : String) : M String := fun s =>
  let raw := A s.aIdx
  (.ok (if raw = "" then dflt else raw),
   { s with aIdx := s.aIdx + 1, prompts := s.prompts ++ [q] })

/-- The two working-area directories (src lines 18-19). -/
def BASE_REPO_DIR : String := "base_repo"

def MERGE_REPO_DIR : String := "merge_repo"

/-- `shutil.rmtree(repo)` guarded by `repo.exists()` for one directory. -/
def rmDir (d : String) (fs : List String) : List String :=
  if d ∈ fs then fs.filter (fun p => p ≠ d) else fs

/-- `cleanup` (src lines 53-60): remove the base working area, then the
merge working area, each only if present. -/
def cleanupFs (fs : List String) : List String :=
  rmDir MERGE_REPO_DIR (rmDir BASE_REPO_DIR fs)

def cleanupM : M Unit := fun s => (.ok (), { s with fs := cleanupFs s.fs })

/-- `clone_repo` (src lines 76-97): runs `git clone` via `Popen`, waits,
and returns the exit code without raising; a successful clone creates the
target directory, a failed clone leaves it absent. -/
def cloneRepoM (W : Nat → CmdResult) (url target : String) : M Int := fun s =>
  let res := W s.wIdx
  let s' : Sys := { s with wIdx := s.wIdx + 1,
                           cmds := s.cmds ++ ["git clone --progress " ++ url ++ " " ++ target] }
  if res.exitCode = 0 then
    (.ok res.exitCode, { s' with fs := if target ∈ s'.fs then s'.fs else s'.fs ++ [target] })
  else (.ok res.exitCode, s')

/-- `list_branches` (src lines 100-104), pure parsing of the
`git branch -r` output. -/
def parseBranches (raw : String) : List String :=
  pySortedSet (((pySplitlines raw).filter
    (fun line => !strContains line "->" && !strContains line "HEAD")).map pyLastSeg)

def list_branchesM (W : Nat → CmdResult) (dir : String) : M (List String) :=
  mBind (runCmdM W "git branch -r" dir false) (fun raw => mPure (parseBranches raw))

/-- `get_head_branch` (src lines 107-116), pure part: the `for` loop body
returns `None` whenever its first line lacks the marker, so only the
first output line is ever inspected. -/
def parseHeadBranch (output : String) : Option String :=
  match pySplitlines output with
  | [] => none
  | line :: _ =>
    if strContains line "HEAD branch:" then
      some (pyStrip ((splitCh ':' line).getD 1 ""))
    else none

/-- `get_head_branch` (src lines 107-116): any exception is swallowed and
the hardcoded name `"main"` is returned. -/
def get_head_branchM (W : Nat → CmdResult) (dir : String) : M (Option String) :=
  catchExc
    (mBind (runCmdM W "git remote show origin" dir false)
      (fun out => mPure (parseHeadBranch out)))
    (fun _ => mPure (some "main"))

/-- `get_commit_dates` (src lines 132-140): one lookup per branch, a
failing lookup recorded as `"N/A"`; insertion order of the Python dict is
the branch order. -/
def get_commit_datesM (W : Nat → CmdResult) (dir : String) :
    List String → M (List (String × String))
  | [] => mPure []
  | b :: bs =>
    mBind
      (catchExc (runCmdM W ("git log origin/" ++ b ++ " -1 --format=%ci") dir false)
        (fun _ => mPure "N/A"))
      (fun d =>
        mBind (get_commit_datesM W dir bs)
          (fun rest => mPure ((b, d) :: rest)))

/-- `choose_branch` (src lines 143-157).  The rich table is
presentation-only.  `default = head if head in branches else branches[0]`
raises `IndexError` on an empty listing. -/
def choose_branchM (W : Nat → CmdResult) (A : Nat → String) (dir : String) : M String :=
  mBind (list_branchesM W dir) (fun branches =>
    mBind (get_head_branchM W dir) (fun head =>
      mBind (get_commit_datesM W dir branches) (fun _dates =>
        mBind
          (match head with
           | some h =>
             if h ∈ branches then mPure h
             else
               match branches with
               | [] => throwExc indexErrorMsg
               | b :: _ => mPure b
           | none =>
             match branches with
             | [] => throwExc indexErrorMsg
             | b :: _ => mPure b)
          (fun dflt => promptAskDefaultM A "Select branch to merge" dflt))))

/-- `filter_repo_to_subdir` (src lines 119-124): a failure is caught,
printed, and converted into `exit(1)` (`SystemExit`). -/
def filter_repo_to_subdirM (W : Nat → CmdResult) (repo_dir_ subdir_ : String) : M Unit :=
  catchExc
    (mBind
      (runCmdM W ("git-filter-repo --to-subdirectory-filter " ++ subdir_ ++ " --force")
        repo_dir_ false)
      (fun _ => mPure ()))
    (fun _ => throwExit 1)

/-- Command-line flags (src lines 222-241). -/
structure Args where
  verbose : Bool := false
  debug : Bool := false
  analytics : Bool := false
  retry : Bool := false
  merge_conflict_base : Bool := false
  merge_conflict_side : Bool := false
  merge_preview : Bool := false
  show_diff : Bool := false
  smart : Bool := false
  y : Bool := false
  base_branch : Option String := none
deriving DecidableEq

/-- Labels for the control paths of `perform_merge`, matching the
specification's `MergeOutcome` plus the early preview exit; the source
itself returns nothing, so the outcome names which branch ran. -/
inductive MergeOutcome where
  | clean
  | autoResolvedUnrelated
  | conflictsPending
  | conflictsResolvedByPolicy
  | conflictsResolvedManually
  | previewOnly
deriving DecidableEq

/-- `perform_merge` (src lines 160-198). -/
def perform_mergeM (a : Args) (W : Nat → CmdResult) (A : Nat → String)
    (base_branch_ _subdir_ : String) (conflict_strategy : Option String) : M MergeOutcome :=
  mBind (runCmdM W ("git checkout " ++ base_branch_) BASE_REPO_DIR false) (fun _ =>
  mBind (runCmdM W "git remote add merge_repo ../merge_repo" BASE_REPO_DIR false) (fun _ =>
  mBind (runCmdM W "git fetch merge_repo" BASE_REPO_DIR false) (fun _ =>
  if a.merge_preview then
    mBind (runCmdM W "git log --graph --oneline --all" BASE_REPO_DIR false) (fun _ =>
    mBind (runCmdM W "git ls-tree -r HEAD" BASE_REPO_DIR false) (fun _ =>
    mPure .previewOnly))
  else
    mBind
      (if a.show_diff then
        mBind (promptAskM A "Show diff before merge?") (fun ans =>
          if ans = "yes" then
            mBind (runCmdM W "git diff HEAD merge_repo/HEAD" BASE_REPO_DIR true)
              (fun _ => mPure ())
          else mPure ())
      else mPure ())
      (fun _ =>
        let strategy_flag :=
          if conflict_strategy = some "base" then "-X ours"
          else if conflict_strategy = some "side" then "-X theirs"
          else ""
        let base_merge_cmd :=
          pyStrip ("git merge merge_repo/HEAD --allow-unrelated-histories " ++ strategy_flag)
        catchExc
          (mBind (runCmdM W base_merge_cmd BASE_REPO_DIR true) (fun _ => mPure .clean))
          (fun e =>
            if strContains (pyLower e) "unrelated histories" then
              mBind (runCmdM W base_merge_cmd BASE_REPO_DIR true)
                (fun _ => mPure .autoResolvedUnrelated)
            else
              if a.merge_conflict_side then
                mBind
                  (runCmdM W "git merge --strategy=recursive -X theirs merge_repo/HEAD"
                    BASE_REPO_DIR true)
                  (fun _ => mPure .conflictsResolvedByPolicy)
              else if a.merge_conflict_base then
                mBind
                  (runCmdM W "git merge --strategy=recursive -X ours merge_repo/HEAD"
                    BASE_REPO_DIR true)
                  (fun _ => mPure .conflictsResolvedByPolicy)
              else if a.y then mPure .conflictsPending
              else
                mBind (promptAskM A "Resolve conflicts in subdir \x7bsubdir_\x7d then press Enter")
                  (fun _ => mPure .conflictsResolvedManually))))))

/-- `show_git_stat` (src lines 201-204). -/
def show_git_statM (a : Args) (W : Nat → CmdResult) : M Unit :=
  if a.verbose then
    mBind (runCmdM W "git diff --stat" BASE_REPO_DIR true) (fun _ => mPure ())
  else mPure ()

/-- The body of the `try:` block of `__main__` (src lines 250-279). -/
def sessionBody (a : Args) (W : Nat → CmdResult) (A : Nat → String)
    (envBase envMerge : Option String) : M Unit :=
  mBind (if a.retry then mPure () else cleanupM) (fun _ =>
  mBind (match envBase with
         | some u => mPure u
         | none => promptAskM A "Base repo URL") (fun base_url =>
  mBind (match envMerge with
         | some u => mPure u
         | none => promptAskM A "Repo to merge in") (fun merge_url =>
  mBind (if a.y then mPure "merged_content"
         else promptAskM A "Subdirectory to move merged code into") (fun subdir =>
  mBind (cloneRepoM W base_url BASE_REPO_DIR) (fun _ =>
  mBind (cloneRepoM W merge_url MERGE_REPO_DIR) (fun _ =>
  mBind (choose_branchM W A MERGE_REPO_DIR) (fun merge_branch =>
  mBind (runCmdM W ("git checkout " ++ merge_branch) MERGE_REPO_DIR false) (fun _ =>
  mBind (filter_repo_to_subdirM W MERGE_REPO_DIR subdir) (fun _ =>
  mBind (match a.base_branch with
         | some b => mPure b
         | none => promptAskDefaultM A "Target branch to merge into" "main") (fun base_branch =>
  mBind
    (perform_mergeM a W A base_branch subdir
      (if a.merge_conflict_base then some "base"
       else if a.merge_conflict_side then some "side" else none)) (fun _ =>
  mBind (show_git_statM a W) (fun _ =>
  mBind (promptAskDefaultM A "Push to origin?" "no") (fun push_ans =>
  if push_ans = "yes" then
    mBind (runCmdM W "git push origin HEAD" BASE_REPO_DIR false) (fun _ => mPure ())
  else mPure ())))))))))))))

/-- The whole `try/finally` of `__main__` (src lines 250-284): `SUCCESS`
is set only after the last step; on any escaped exception the `finally`
clause destroys both working areas before the process exits non-zero. -/
def runSession (a : Args) (W : Nat → CmdResult) (A : Nat → String)
    (envBase envMerge : Option String) (s0 : Sys) : Bool × Sys :=
  match sessionBody a W A envBase envMerge s0 with
  | (.ok _, s) => (true, s)
  | (.error _, s) => (false, { s with fs := cleanupFs s.fs })

/-! ## Basic execution lemmas -/

/-- Destructing a successful `mBind`: the first step succeeded and the
continuation ran from its state. -/
theorem mBind_ok {α β : Type} {x : M α} {f : α → M β} {s sF : Sys} {b : β}
    (h : mBind x f s = (.ok b, sF)) :
    ∃ a s', x s = (.ok a, s') ∧ f a s' = (.ok b, sF) := by
  unfold mBind at h
  rcases hx : x s with ⟨r, s₁⟩
  rw [hx] at h
  cases r with
  | ok a => exact ⟨a, s₁, rfl, h⟩
  | error e => simp at h

/-- A computation that never changes which directories exist. -/
def PresFs {α : Type} (x : M α) : Prop := ∀ s : Sys, ((x s).2).fs = s.fs

theorem presFs_mPure {α : Type} (a : α) : PresFs (mPure a) := fun _ => rfl

theorem presFs_throwExc {α : Type} (m : String) : PresFs (throwExc m : M α) := fun _ => rfl

theorem presFs_throwExit {α : Type} (c : Nat) : PresFs (throwExit c : M α) := fun _ => rfl

theorem presFs_mBind {α β : Type} {x : M α} {f : α → M β}
    (hx : PresFs x) (hf : ∀ a, PresFs (f a)) : PresFs (mBind x f) := by
  intro s
  unfold mBind
  rcases hxs : x s with ⟨r, s₁⟩
  have h1 : s₁.fs = s.fs := by have := hx s; rw [hxs] at this; exact this
  cases r with
  | ok a => simpa [h1] using hf a s₁
  | error e => simpa using h1

theorem presFs_catchExc {α : Type} {x : M α} {h : String → M α}
    (hx : PresFs x) (hh : ∀ m, PresFs (h m)) : PresFs (catchExc x h) := by
  intro s
  unfold catchExc
  rcases hxs : x s with ⟨r, s₁⟩
  have h1 : s₁.fs = s.fs := by have := hx s; rw [hxs] at this; exact this
  cases r with
  | ok a => simpa using h1
  | error e =>
    cases e with
    | exc m => simpa [h1] using hh m s₁
    | systemExit c => simpa using h1

theorem presFs_runCmdM (W : Nat → CmdResult) (cmd dir : String) (live : Bool) :
    PresFs (runCmdM W cmd dir live) := by
  intro s
  unfold runCmdM
  split
  · dsimp only
    split <;> rfl
  · rfl

theorem presFs_promptAskM (A : Nat → String) (q : String) : PresFs (promptAskM A q) :=
  fun _ => rfl

theorem presFs_promptAskDefaultM (A : Nat → String) (q dflt : String) :
    PresFs (promptAskDefaultM A q dflt) := fun _ => rfl

/-- A successful external command requires its working directory to exist. -/
theorem runCmdM_ok_mem {W : Nat → CmdResult} {cmd dir : String} {live : Bool}
    {s s' : Sys} {out : String} (h : runCmdM W cmd dir live s = (.ok out, s')) :
    dir ∈ s.fs := by
  by_contra hmem
  unfold runCmdM at h
  rw [if_neg hmem] at h
  simp at h

theorem runCmdM_run_ok {W : Nat → CmdResult} {cmd dir : String} {live : Bool} {s : Sys}
    {out : String} (h : dir ∈ s.fs) (hr : runCmd cmd live (W s.wIdx) = .ok out) :
    runCmdM W cmd dir live s =
      (.ok out, { s with wIdx := s.wIdx + 1, cmds := s.cmds ++ [cmd] }) := by
  unfold runCmdM
  rw [if_pos h]
  dsimp only
  rw [hr]

theorem runCmdM_run_err {W : Nat → CmdResult} {cmd dir : String} {live : Bool} {s : Sys}
    {m : String} (h : dir ∈ s.fs) (hr : runCmd cmd live (W s.wIdx) = .error m) :
    runCmdM W cmd dir live s =
      (.error (.exc m), { s with wIdx := s.wIdx + 1, cmds := s.cmds ++ [cmd] }) := by
  unfold runCmdM
  rw [if_pos h]
  dsimp only
  rw [hr]

/-- Full behaviour of the default-branch query: it never raises; with the
directory present it consumes one command, answering the parsed first
line on success and the hardcoded `"main"` on command failure; with the
directory absent the swallowed `FileNotFoundError` also yields `"main"`. -/
theorem get_head_branchM_run (W : Nat → CmdResult) (dir : String) (s : Sys) :
    get_head_branchM W dir s =
      if _h : dir ∈ s.fs then
        ((.ok (if (W s.wIdx).exitCode = 0
               then parseHeadBranch (pyStrip (W s.wIdx).stdout)
               else some "main")),
         { s with wIdx := s.wIdx + 1, cmds := s.cmds ++ ["git remote show origin"] })
      else (.ok (some "main"), s) := by
  by_cases h : dir ∈ s.fs
  · rw [dif_pos h]
    by_cases he : (W s.wIdx).exitCode = 0
    · have hr : runCmd "git remote show origin" false (W s.wIdx)
          = .ok (pyStrip (W s.wIdx).stdout) := by
        simp [runCmd, he]
      unfold get_head_branchM catchExc mBind
      rw [runCmdM_run_ok h hr]
      simp [mPure, he]
    · have hr : runCmd "git remote show origin" false (W s.wIdx)
          = .error ("Command failed: " ++ "git remote show origin") := by
        simp [runCmd, he]
      unfold get_head_branchM catchExc mBind
      rw [runCmdM_run_err h hr]
      simp [mPure, he]
  · rw [dif_neg h]
    have hr : runCmdM W "git remote show origin" dir false s = (.error (.exc fileNotFound), s) := by
      unfold runCmdM
      rw [if_neg h]
    unfold get_head_branchM catchExc mBind
    rw [hr]
    simp [mPure]

theorem presFs_list_branchesM (W : Nat → CmdResult) (dir : String) :
    PresFs (list_branchesM W dir) :=
  presFs_mBind (presFs_runCmdM W "git branch -r" dir false) (fun _ => presFs_mPure _)

theorem presFs_get_head_branchM (W : Nat → CmdResult) (dir : String) :
    PresFs (get_head_branchM W dir) :=
  presFs_catchExc
    (presFs_mBind (presFs_runCmdM W "git remote show origin" dir false)
      (fun _ => presFs_mPure _))
    (fun _ => presFs_mPure _)

theorem presFs_get_commit_datesM (W : Nat → CmdResult) (dir : String) :
    ∀ bs : List String, PresFs (get_commit_datesM W dir bs) := by
  intro bs
  induction bs with
  | nil => exact presFs_mPure _
  | cons b bs ih =>
    exact presFs_mBind
      (presFs_catchExc (presFs_runCmdM W _ dir false) (fun _ => presFs_mPure _))
      (fun d => presFs_mBind ih (fun rest => presFs_mPure _))

theorem presFs_choose_branchM (W : Nat → CmdResult) (A : Nat → String) (dir : String) :
    PresFs (choose_branchM W A dir) := by
  unfold choose_branchM
  refine presFs_mBind (presFs_list_branchesM W dir) (fun branches => ?_)
  refine presFs_mBind (presFs_get_head_branchM W dir) (fun head => ?_)
  refine presFs_mBind (presFs_get_commit_datesM W dir branches) (fun _dates => ?_)
  refine presFs_mBind ?_ (fun dflt => presFs_promptAskDefaultM A _ _)
  cases head with
  | some h =>
    by_cases hmem : h ∈ branches
    · simpa [hmem] using presFs_mPure h
    · simp only [if_neg hmem]
      cases branches with
      | nil => exact presFs_throwExc _
      | cons b _ => exact presFs_mPure _
  | none =>
    cases branches with
    | nil => exact presFs_throwExc _
    | cons b _ => exact presFs_mPure _

theorem presFs_filter_repo_to_subdirM (W : Nat → CmdResult) (repo_dir_ subdir_ : String) :
    PresFs (filter_repo_to_subdirM W repo_dir_ subdir_) :=
  presFs_catchExc
    (presFs_mBind (presFs_runCmdM W _ repo_dir_ false) (fun _ => presFs_mPure _))
    (fun _ => presFs_throwExit _)

theorem presFs_perform_mergeM (a : Args) (W : Nat → CmdResult) (A : Nat → String)
    (bb sd : String) (cs : Option String) : PresFs (perform_mergeM a W A bb sd cs) := by
  unfold perform_mergeM
  refine presFs_mBind (presFs_runCmdM W _ _ false) (fun _ => ?_)
  refine presFs_mBind (presFs_runCmdM W _ _ false) (fun _ => ?_)
  refine presFs_mBind (presFs_runCmdM W _ _ false) (fun _ => ?_)
  by_cases hp : a.merge_preview
  · simp only [if_pos hp]
    exact presFs_mBind (presFs_runCmdM W _ _ false)
      (fun _ => presFs_mBind (presFs_runCmdM W _ _ false) (fun _ => presFs_mPure _))
  · simp only [if_neg hp]
    refine presFs_mBind ?_ (fun _ => ?_)
    · by_cases hd : a.show_diff
      · simp only [if_pos hd]
        refine presFs_mBind (presFs_promptAskM A _) (fun ans => ?_)
        by_cases hy : ans = "yes"
        · simpa [hy] using
            presFs_mBind (presFs_runCmdM W _ _ true) (fun _ => presFs_mPure ())
        · simpa [hy] using presFs_mPure ()
      · simpa [hd] using presFs_mPure ()
    · refine presFs_catchExc
        (presFs_mBind (presFs_runCmdM W _ _ true) (fun _ => presFs_mPure _)) (fun e => ?_)
      by_cases hu : strContains (pyLower e) "unrelated histories" = true
      · simpa [hu] using
          presFs_mBind (presFs_runCmdM W _ _ true) (fun _ => presFs_mPure MergeOutcome.autoResolvedUnrelated)
      · simp only [Bool.not_eq_true] at hu
        simp only [hu]
        by_cases hside : a.merge_conflict_side
        · simpa [hside] using
            presFs_mBind (presFs_runCmdM W _ _ true) (fun _ => presFs_mPure MergeOutcome.conflictsResolvedByPolicy)
        · by_cases hbase : a.merge_conflict_base
          · simpa [hside, hbase] using
              presFs_mBind (presFs_runCmdM W _ _ true) (fun _ => presFs_mPure MergeOutcome.conflictsResolvedByPolicy)
          · by_cases hyy : a.y
            · simpa [hside, hbase, hyy] using presFs_mPure MergeOutcome.conflictsPending
            · simpa [hside, hbase, hyy] using
                presFs_mBind (presFs_promptAskM A _) (fun _ => presFs_mPure MergeOutcome.conflictsResolvedManually)

theorem presFs_show_git_statM (a : Args) (W : Nat → CmdResult) :
    PresFs (show_git_statM a W) := by
  unfold show_git_statM
  by_cases hv : a.verbose
  · simpa [hv] using presFs_mBind (presFs_runCmdM W _ _ true) (fun _ => presFs_mPure ())
  · simpa [hv] using presFs_mPure ()

theorem mPure_ok {α : Type} {a b : α} {s s' : Sys} (h : mPure a s = (.ok b, s')) :
    a = b ∧ s = s' := by
  unfold mPure at h
  injection h with h1 h2
  injection h1 with h1
  exact ⟨h1, h2⟩

/-- A successful branch choice requires the working area to exist (its
first action lists the remote branches there). -/
theorem choose_branchM_ok_mem {W : Nat → CmdResult} {A : Nat → String} {dir : String}
    {s s' : Sys} {b : String} (h : choose_branchM W A dir s = (.ok b, s')) : dir ∈ s.fs := by
  unfold choose_branchM at h
  obtain ⟨branches, s₁, h1, -⟩ := mBind_ok h
  unfold list_branchesM at h1
  obtain ⟨raw, s₂, h2, -⟩ := mBind_ok h1
  exact runCmdM_ok_mem h2

/-- A merge phase that returns requires the base working area to exist
(its first action is a checkout there). -/
theorem perform_mergeM_ok_mem {a : Args} {W : Nat → CmdResult} {A : Nat → String}
    {bb sd : String} {cs : Option String} {s s' : Sys} {o : MergeOutcome}
    (h : perform_mergeM a W A bb sd cs s = (.ok o, s')) : BASE_REPO_DIR ∈ s.fs := by
  unfold perform_mergeM at h
  obtain ⟨o1, s₁, h1, -⟩ := mBind_ok h
  exact runCmdM_ok_mem h1

/-- A session body that runs to completion leaves both working areas on
disk: everything after the two clones preserves the directory set, the
branch choice ran inside the merge working area and the merge phase ran
inside the base working area. -/
theorem sessionBody_ok_mem {a : Args} {W : Nat → CmdResult} {A : Nat → String}
    {eb em : Option String} {s0 sF : Sys}
    (h : sessionBody a W A eb em s0 = (.ok (), sF)) :
    BASE_REPO_DIR ∈ sF.fs ∧ MERGE_REPO_DIR ∈ sF.fs := by
  unfold sessionBody at h
  obtain ⟨-, s1, h1, h⟩ := mBind_ok h
  obtain ⟨bu, s2, h2, h⟩ := mBind_ok h
  obtain ⟨mu, s3, h3, h⟩ := mBind_ok h
  obtain ⟨sd, s4, h4, h⟩ := mBind_ok h
  obtain ⟨rc1, s5, h5, h⟩ := mBind_ok h
  obtain ⟨rc2, s6, h6, h⟩ := mBind_ok h
  obtain ⟨mb, s7, h7, h⟩ := mBind_ok h
  obtain ⟨co, s8, h8, h⟩ := mBind_ok h
  obtain ⟨fl, s9, h9, h⟩ := mBind_ok h
  obtain ⟨bb, s10, h10, h⟩ := mBind_ok h
  obtain ⟨oc, s11, h11, h⟩ := mBind_ok h
  obtain ⟨st, s12, h12, h⟩ := mBind_ok h
  obtain ⟨pa, s13, h13, h⟩ := mBind_ok h
  have hm : MERGE_REPO_DIR ∈ s6.fs := choose_branchM_ok_mem h7
  have hbm : BASE_REPO_DIR ∈ s10.fs := perform_mergeM_ok_mem h11
  have e7 : s7.fs = s6.fs := by
    have := presFs_choose_branchM W A MERGE_REPO_DIR s6; rw [h7] at this; exact this
  have e8 : s8.fs = s7.fs := by
    have := presFs_runCmdM W ("git checkout " ++ mb) MERGE_REPO_DIR false s7
    rw [h8] at this; exact this
  have e9 : s9.fs = s8.fs := by
    have := presFs_filter_repo_to_subdirM W MERGE_REPO_DIR sd s8; rw [h9] at this; exact this
  have e10 : s10.fs = s9.fs := by
    rcases hab : a.base_branch with - | b
    · rw [hab] at h10
      dsimp only at h10
      have := presFs_promptAskDefaultM A "Target branch to merge into" "main" s9
      rw [h10] at this; exact this
    · rw [hab] at h10
      dsimp only at h10
      obtain ⟨-, h9eq⟩ := mPure_ok h10
      rw [h9eq]
  have e11 : s11.fs = s10.fs := by
    have := presFs_perform_mergeM a W A bb sd
      (if a.merge_conflict_base then some "base"
       else if a.merge_conflict_side then some "side" else none) s10
    rw [h11] at this; exact this
  have e12 : s12.fs = s11.fs := by
    have := presFs_show_git_statM a W s11; rw [h12] at this; exact this
  have e13 : s13.fs = s12.fs := by
    have h13' := presFs_promptAskDefaultM A "Push to origin?" "no" s12
    rw [h13] at h13'; exact h13'
  have eF : sF.fs = s13.fs := by
    by_cases hpa : pa = "yes"
    · rw [if_pos hpa] at h
      have := presFs_mBind (presFs_runCmdM W "git push origin HEAD" BASE_REPO_DIR false)
        (fun _ => presFs_mPure ()) s13
      rw [h] at this; exact this
    · rw [if_neg hpa] at h
      have := presFs_mPure () s13; rw [h] at this; exact this
  have hfs : sF.fs = s6.fs := by rw [eF, e13, e12, e11, e10, e9, e8, e7]
  have hfs10 : s10.fs = s6.fs := by rw [e10, e9, e8, e7]
  exact ⟨by rw [hfs, ← hfs10]; exact hbm, by rw [hfs]; exact hm⟩

theorem not_mem_rmDir_self (d : String) (fs : List String) : d ∉ rmDir d fs := by
  unfold rmDir
  split
  · intro hm
    have := (List.mem_filter.mp hm).2
    simp at this
  · assumption

theorem not_mem_rmDir {d' d : String} {fs : List String} (h : d' ∉ fs) : d' ∉ rmDir d fs := by
  unfold rmDir
  split
  · intro hm; exact h (List.mem_filter.mp hm).1
  · exact h

theorem base_not_mem_cleanupFs (fs : List String) : BASE_REPO_DIR ∉ cleanupFs fs :=
  not_mem_rmDir (not_mem_rmDir_self BASE_REPO_DIR fs)

theorem merge_not_mem_cleanupFs (fs : List String) : MERGE_REPO_DIR ∉ cleanupFs fs :=
  not_mem_rmDir_self MERGE_REPO_DIR (rmDir BASE_REPO_DIR fs)

theorem charListLe_total (as : List Char) : ∀ bs : List Char,
    charListLe as bs = true ∨ charListLe bs as = true := by
  induction as with
  | nil => intro bs; left; rfl
  | cons a as ih =>
    intro bs
    cases bs with
    | nil => right; rfl
    | cons b bs =>
      by_cases h1 : a.toNat < b.toNat
      · left
        simp [charListLe, h1]
      · by_cases h2 : b.toNat < a.toNat
        · right
          simp [charListLe, h1, h2]
        · rcases ih bs with h | h
          · left; simp [charListLe, h1, h2, h]
          · right; simp [charListLe, h1, h2, h]

theorem charListLe_trans (as : List Char) : ∀ bs cs : List Char,
    charListLe as bs = true → charListLe bs cs = true → charListLe as cs = true := by
  induction as with
  | nil => intro bs cs _ _; rfl
  | cons a as ih =>
    intro bs cs h1 h2
    cases bs with
    | nil => simp [charListLe] at h1
    | cons b bs =>
      cases cs with
      | nil => simp [charListLe] at h2
      | cons c cs =>
        simp only [charListLe] at h1 h2 ⊢
        by_cases hab : a.toNat < b.toNat
        · by_cases hbc : b.toNat < c.toNat
          · have hac : a.toNat < c.toNat := by omega
            simp [hac]
          · by_cases hcb : c.toNat < b.toNat
            · rw [if_neg hbc, if_pos hcb] at h2
              cases h2
            · have hac : a.toNat < c.toNat := by omega
              simp [hac]
        · by_cases hba : b.toNat < a.toNat
          · rw [if_neg hab, if_pos hba] at h1
            cases h1
          · rw [if_neg hab, if_neg hba] at h1
            by_cases hbc : b.toNat < c.toNat
            · have hac : a.toNat < c.toNat := by omega
              simp [hac]
            · by_cases hcb : c.toNat < b.toNat
              · rw [if_neg hbc, if_pos hcb] at h2
                cases h2
              · rw [if_neg hbc, if_neg hcb] at h2
                have hac : ¬ a.toNat < c.toNat := by omega
                have hca : ¬ c.toNat < a.toNat := by omega
                rw [if_neg hac, if_neg hca]
                exact ih bs cs h1 h2

instance : IsTotal String strLeP := ⟨fun a b => charListLe_total a.data b.data⟩

instance : IsTrans String strLeP := ⟨fun a b c => charListLe_trans a.data b.data c.data⟩

/-- Expected result of the per-branch date lookups: the branch at
position `k` consumes oracle entry `i + k`; a non-zero exit yields
`"N/A"`, a zero exit the stripped output. -/
def expectedDates (W : Nat → CmdResult) (i : Nat) : List String → List (String × String)
  | [] => []
  | b :: bs =>
    (b, if (W i).exitCode = 0 then pyStrip (W i).stdout else "N/A") :: expectedDates W (i + 1) bs

theorem expectedDates_fst (W : Nat → CmdResult) : ∀ (bs : List String) (i : Nat),
    (expectedDates W i bs).map Prod.fst = bs := by
  intro bs
  induction bs with
  | nil => intro i; rfl
  | cons b bs ih => intro i; simp [expectedDates, ih (i + 1)]

theorem get_commit_datesM_run (W : Nat → CmdResult) (dir : String) :
    ∀ (bs : List String) (s : Sys), dir ∈ s.fs →
      ∃ s' : Sys, get_commit_datesM W dir bs s = (.ok (expectedDates W s.wIdx bs), s')
        ∧ s'.fs = s.fs ∧ s'.prompts = s.prompts := by
  intro bs
  induction bs with
  | nil => intro s _; exact ⟨s, rfl, rfl, rfl⟩
  | cons b bs ih =>
    intro s h
    obtain ⟨s', hrun, hfs, hpr⟩ :=
      ih { s with wIdx := s.wIdx + 1,
                  cmds := s.cmds ++ ["git log origin/" ++ b ++ " -1 --format=%ci"] } h
    have hcatch : (catchExc (runCmdM W ("git log origin/" ++ b ++ " -1 --format=%ci") dir false)
        (fun _ => mPure "N/A")) s
        = (.ok (if (W s.wIdx).exitCode = 0 then pyStrip (W s.wIdx).stdout else "N/A"),
           { s with wIdx := s.wIdx + 1,
                    cmds := s.cmds ++ ["git log origin/" ++ b ++ " -1 --format=%ci"] }) := by
      by_cases he : (W s.wIdx).exitCode = 0
      · have hr : runCmd ("git log origin/" ++ b ++ " -1 --format=%ci") false (W s.wIdx)
            = .ok (pyStrip (W s.wIdx).stdout) := by simp [runCmd, he]
        unfold catchExc
        rw [runCmdM_run_ok h hr]
        simp [he]
      · have hr : runCmd ("git log origin/" ++ b ++ " -1 --format=%ci") false (W s.wIdx)
            = .error ("Command failed: " ++ ("git log origin/" ++ b ++ " -1 --format=%ci")) := by
          simp [runCmd, he]
        unfold catchExc
        rw [runCmdM_run_err h hr]
        simp [mPure, he]
    refine ⟨s', ?_, hfs, hpr⟩
    show (mBind (catchExc (runCmdM W ("git log origin/" ++ b ++ " -1 --format=%ci") dir false)
        (fun _ => mPure "N/A"))
      (fun d => mBind (get_commit_datesM W dir bs)
        (fun rest => mPure ((b, d) :: rest)))) s
      = (.ok (expectedDates W s.wIdx (b :: bs)), s')
    unfold mBind
    rw [hcatch]
    dsimp only
    rw [hrun]
    rfl

theorem list_branchesM_run_ok {W : Nat → CmdResult} {dir : String} {s : Sys}
    (h : dir ∈ s.fs) (he : (W s.wIdx).exitCode = 0) :
    list_branchesM W dir s = (.ok (parseBranches (pyStrip (W s.wIdx).stdout)),
      { s with wIdx := s.wIdx + 1, cmds := s.cmds ++ ["git branch -r"] }) := by
  have hr : runCmd "git branch -r" false (W s.wIdx) = .ok (pyStrip (W s.wIdx).stdout) := by
    simp [runCmd, he]
  unfold list_branchesM mBind
  rw [runCmdM_run_ok h hr]
  rfl

/-! ## Concrete runs used by the claims -/

def A0 : Nat → String := fun _ => ""

def sEmpty : Sys := { fs := [], wIdx := 0, aIdx := 0, cmds := [], prompts := [] }

def sInit : Sys :=
  { fs := [BASE_REPO_DIR, MERGE_REPO_DIR], wIdx := 0, aIdx := 0, cmds := [], prompts := [] }

def okRes : CmdResult := { exitCode := 0, stdout := "", stderr := "" }

/-- Oracle for a full session in which every command succeeds except the
default-branch query (command index 3), which exits 1. -/
def WC1 : Nat → CmdResult := fun i =>
  if i = 2 then { exitCode := 0, stdout := "  origin/main", stderr := "" }
  else if i = 3 then { exitCode := 1, stdout := "", stderr := "fatal: remote error" }
  else if i = 4 then { exitCode := 0, stdout := "2024-01-01 00:00:00 +0000", stderr := "" }
  else okRes

def argsC1 : Args := { y := true, base_branch := some "main" }

/-- Oracle in which every external command fails. -/
def WallFail : Nat → CmdResult := fun _ => { exitCode := 1, stdout := "", stderr := "boom" }

/-! ## Claims -/

/-- C1 counterexample: a concrete session in which an external command
other than a per-branch date lookup — the default-branch query, the
fourth command executed — exits non-zero, yet the session succeeds and
both working areas are left on disk, because `get_head_branch` swallows
the failure and falls back to the hardcoded name.  This refutes the
claim that any non-zero exit outside date lookups forces cleanup and
session failure. -/
theorem session_succeeds_despite_nonzero_exit :
    (runSession argsC1 WC1 A0 (some "u") (some "v") sEmpty).1 = true
    ∧ BASE_REPO_DIR ∈ (runSession argsC1 WC1 A0 (some "u") (some "v") sEmpty).2.fs
    ∧ MERGE_REPO_DIR ∈ (runSession argsC1 WC1 A0 (some "u") (some "v") sEmpty).2.fs
    ∧ (runSession argsC1 WC1 A0 (some "u") (some "v") sEmpty).2.cmds.getD 3 ""
        = "git remote show origin"
    ∧ (WC1 3).exitCode = 1 := by decide

/-- C1 (amended): for every run of the session, if the session returns
failure then cleanup has destroyed both working areas (neither directory
remains), and if it returns success both working areas are present on
disk; however a non-zero exit of an external command does not always
produce failure: the clone exit codes are ignored and a failed
default-branch query is swallowed (hardcoded fallback), so only an
escaped exception triggers the failure path. -/
theorem session_cleanup_on_failure_intact_on_success (a : Args) (W : Nat → CmdResult)
    (A : Nat → String) (eb em : Option String) (s0 : Sys) :
    ((runSession a W A eb em s0).1 = false →
        BASE_REPO_DIR ∉ (runSession a W A eb em s0).2.fs
        ∧ MERGE_REPO_DIR ∉ (runSession a W A eb em s0).2.fs)
    ∧ ((runSession a W A eb em s0).1 = true →
        BASE_REPO_DIR ∈ (runSession a W A eb em s0).2.fs
        ∧ MERGE_REPO_DIR ∈ (runSession a W A eb em s0).2.fs) := by
  unfold runSession
  rcases hb : sessionBody a W A eb em s0 with ⟨r, s⟩
  cases r with
  | ok u =>
    cases u
    refine ⟨fun hfalse => ?_, fun _ => sessionBody_ok_mem hb⟩
    exact nomatch hfalse
  | error e =>
    refine ⟨fun _ => ⟨base_not_mem_cleanupFs s.fs, merge_not_mem_cleanupFs s.fs⟩,
            fun htrue => ?_⟩
    exact nomatch htrue

theorem session_cleanup_on_failure_intact_on_success_witness :
    (BASE_REPO_DIR ∈ (runSession argsC1 WC1 A0 (some "u") (some "v") sEmpty).2.fs
      ∧ MERGE_REPO_DIR ∈ (runSession argsC1 WC1 A0 (some "u") (some "v") sEmpty).2.fs)
    ∧ (BASE_REPO_DIR ∉ (runSession argsC1 WallFail A0 (some "u") (some "v") sEmpty).2.fs
      ∧ MERGE_REPO_DIR ∉ (runSession argsC1 WallFail A0 (some "u") (some "v") sEmpty).2.fs) :=
  ⟨(session_cleanup_on_failure_intact_on_success argsC1 WC1 A0 (some "u") (some "v") sEmpty).2
      (by decide),
   (session_cleanup_on_failure_intact_on_success argsC1 WallFail A0 (some "u") (some "v")
      sEmpty).1 (by decide)⟩

/-- C4 counterexample: the failure raised by `run_cmd` does not carry the
exit code or the stderr text: two failures of the same command with
different exit codes and different stderr texts are the very same value,
which records only the command; and in streaming mode the raised failure
is the `AttributeError` from the unguarded `result.stderr.strip()`,
carrying nothing at all. -/
theorem runCmd_failure_not_structured :
    runCmd "git fetch merge_repo" false { exitCode := 1, stdout := "", stderr := "errA" }
      = runCmd "git fetch merge_repo" false { exitCode := 2, stdout := "", stderr := "errB" }
    ∧ runCmd "git fetch merge_repo" false { exitCode := 1, stdout := "", stderr := "errA" }
      = .error "Command failed: git fetch merge_repo"
    ∧ runCmd "git diff HEAD merge_repo/HEAD" true { exitCode := 1, stdout := "", stderr := "errC" }
      = .error attributeErrorStrip := by decide

/-- C4 (amended): the process runner returns the captured standard output
trimmed when streaming is off and the empty string when streaming is on;
it raises exactly when the exit code is non-zero and performs no retry
(one oracle entry per invocation); but the raised failure carries only
the command text (capture mode) — not the exit code or stderr — and in
streaming mode it is an attribute error carrying nothing. -/
theorem runCmd_contract :
    (∀ (cmd : String) (res : CmdResult), res.exitCode = 0 →
        runCmd cmd false res = .ok (pyStrip res.stdout))
    ∧ (∀ (cmd : String) (res : CmdResult), res.exitCode = 0 → runCmd cmd true res = .ok "")
    ∧ (∀ (cmd : String) (live : Bool) (res : CmdResult), res.exitCode ≠ 0 →
        ∀ out, runCmd cmd live res ≠ .ok out)
    ∧ (∀ (cmd : String) (res : CmdResult), res.exitCode ≠ 0 →
        runCmd cmd false res = .error ("Command failed: " ++ cmd))
    ∧ (∀ (cmd : String) (res : CmdResult), res.exitCode ≠ 0 →
        runCmd cmd true res = .error attributeErrorStrip)
    ∧ (∀ (W : Nat → CmdResult) (cmd dir : String) (live : Bool) (s : Sys),
        ((runCmdM W cmd dir live s).2).wIdx ≤ s.wIdx + 1) := by
  refine ⟨?_, ?_, ?_, ?_, ?_, ?_⟩
  · intro cmd res he
    simp [runCmd, he]
  · intro cmd res he
    simp [runCmd, he]
    rfl
  · intro cmd live res he out
    simp only [runCmd, if_neg he]
    split <;> simp
  · intro cmd res he
    simp [runCmd, he]
  · intro cmd res he
    simp [runCmd, he]
  · intro W cmd dir live s
    unfold runCmdM
    split
    · dsimp only
      split <;> simp
    · simp

theorem runCmd_contract_witness :
    runCmd "git push origin HEAD" false
        ({ exitCode := 1, stdout := "", stderr := "denied" } : CmdResult)
      = .error "Command failed: git push origin HEAD" :=
  runCmd_contract.2.2.2.1 "git push origin HEAD"
    ({ exitCode := 1, stdout := "", stderr := "denied" } : CmdResult) (by decide)

/-- C5: for every raw listing, the parsed remote branches are sorted in
ascending code-point order and duplicate-free; and on the concrete
listing `{main, dev, main}` plus a HEAD pointer line the result is
exactly `[dev, main]` — the symbolic pointer entry is excluded. -/
theorem list_branches_sorted_dedup_excludes_head :
    (∀ raw : String, List.Sorted strLeP (parseBranches raw) ∧ (parseBranches raw).Nodup)
    ∧ parseBranches "  origin/main\n  origin/dev\n  origin/main\n  origin/HEAD -> origin/main"
        = ["dev", "main"] := by
  constructor
  · intro raw
    constructor
    · exact List.sorted_insertionSort strLeP _
    · exact ((List.perm_insertionSort strLeP _).nodup_iff).mpr (List.nodup_dedup _)
  · decide

/-- C8: destroy-all cleanup is idempotent: when neither working area
exists it leaves the directory set unchanged, and applying it twice
equals applying it once. -/
theorem cleanup_idempotent_noop :
    (∀ fs : List String, BASE_REPO_DIR ∉ fs → MERGE_REPO_DIR ∉ fs → cleanupFs fs = fs)
    ∧ (∀ fs : List String, cleanupFs (cleanupFs fs) = cleanupFs fs) := by
  have hnoop : ∀ fs : List String,
      BASE_REPO_DIR ∉ fs → MERGE_REPO_DIR ∉ fs → cleanupFs fs = fs := by
    intro fs h1 h2
    unfold cleanupFs rmDir
    rw [if_neg h1, if_neg h2]
  exact ⟨hnoop, fun fs => hnoop _ (base_not_mem_cleanupFs fs) (merge_not_mem_cleanupFs fs)⟩

theorem cleanup_idempotent_noop_witness :
    cleanupFs ["other_dir"] = ["other_dir"]
    ∧ cleanupFs (cleanupFs ["base_repo", "other_dir"]) = cleanupFs ["base_repo", "other_dir"] :=
  ⟨cleanup_idempotent_noop.1 ["other_dir"] (by decide) (by decide),
   cleanup_idempotent_noop.2 ["base_repo", "other_dir"]⟩

/-- Oracle for a merge phase whose merge attempt (command index 3) fails
with a genuine content conflict; every other command succeeds. -/
def WC2 : Nat → CmdResult := fun i =>
  if i = 3 then
    { exitCode := 1, stdout := "", stderr := "CONFLICT (content): vendor/shared.txt" }
  else okRes

def argsSide : Args := { merge_conflict_side := true }

def argsBase : Args := { merge_conflict_base := true }

/-- Modelled from the spec: the conflict-side option of the external merge
command.  The merge tool itself is an external collaborator (spec section
6 lists `merge (with unrelated-histories and conflict-side options)`
among the interfaces consumed, and section 1 places the version-control
command set out of scope), so only its interface is modelled: under the
theirs option every conflicting path receives the incoming side's
content, under the ours option the base side's, and with no side option
the path stays unresolved. -/
def resolveSide (flag : String) (baseContent incomingContent : String) : Option String :=
  if flag = "-X theirs" then some incomingContent
  else if flag = "-X ours" then some baseContent
  else none

/-- C2: when a merge attempt fails with real content conflicts and a side
policy is pre-selected, the orchestrator immediately re-runs the merge
forcing that side (`-X theirs` for the incoming side, `-X ours` for the
base side) and the outcome is ConflictsResolvedByPolicy; per the external
merge interface, forcing the incoming side makes a conflicted file's
content equal the incoming version. -/
theorem conflict_policy_rerun_forces_side :
    ((perform_mergeM argsSide WC2 A0 "main" "vendor" (some "side") sInit).1
        = .ok .conflictsResolvedByPolicy
      ∧ (perform_mergeM argsSide WC2 A0 "main" "vendor" (some "side") sInit).2.cmds
        = ["git checkout main", "git remote add merge_repo ../merge_repo", "git fetch merge_repo",
           "git merge merge_repo/HEAD --allow-unrelated-histories -X theirs",
           "git merge --strategy=recursive -X theirs merge_repo/HEAD"])
    ∧ ((perform_mergeM argsBase WC2 A0 "main" "vendor" (some "base") sInit).1
        = .ok .conflictsResolvedByPolicy
      ∧ (perform_mergeM argsBase WC2 A0 "main" "vendor" (some "base") sInit).2.cmds
        = ["git checkout main", "git remote add merge_repo ../merge_repo", "git fetch merge_repo",
           "git merge merge_repo/HEAD --allow-unrelated-histories -X ours",
           "git merge --strategy=recursive -X ours merge_repo/HEAD"])
    ∧ (∀ b i : String, resolveSide "-X theirs" b i = some i)
    ∧ (∀ b i : String, resolveSide "-X ours" b i = some b) := by
  refine ⟨by decide, by decide, fun b i => ?_, fun b i => ?_⟩
  · unfold resolveSide
    rw [if_pos rfl]
  · unfold resolveSide
    rw [if_neg (by decide), if_pos rfl]

/-- Oracle for a merge phase whose merge attempt (command index 3) fails
because the histories share no common ancestor. -/
def WC3 : Nat → CmdResult := fun i =>
  if i = 3 then
    { exitCode := 128, stdout := "", stderr := "fatal: refusing to merge unrelated histories" }
  else okRes

def argsYonly : Args := { y := true }

/-- C3: the unrelated-histories retry is unreachable.  At the failing
input — the merge command exiting 128 with git's refusing-to-merge
message on stderr — the orchestrator does not retry the unrelated-
histories merge: exactly one merge command appears in the trace and the
run is routed to the conflict branch (outcome ConflictsPending here),
because the exception text it inspects is the AttributeError from the
unguarded stderr access (stderr is not captured in streaming mode) and
never contains the words "unrelated histories"; even the capture-mode
exception text only ever contains the hyphenated flag. -/
theorem unrelated_histories_retry_unreachable :
    (perform_mergeM argsYonly WC3 A0 "main" "merged_content" none sInit).1
        = .ok .conflictsPending
    ∧ (perform_mergeM argsYonly WC3 A0 "main" "merged_content" none sInit).2.cmds
        = ["git checkout main", "git remote add merge_repo ../merge_repo", "git fetch merge_repo",
           "git merge merge_repo/HEAD --allow-unrelated-histories"]
    ∧ strContains (pyLower attributeErrorStrip) "unrelated histories" = false
    ∧ strContains
        (pyLower ("Command failed: " ++ "git merge merge_repo/HEAD --allow-unrelated-histories"))
        "unrelated histories" = false
    ∧ (WC3 3).stderr = "fatal: refusing to merge unrelated histories" := by decide

def argsC9 : Args := { y := true, show_diff := true }

/-- Oracle for a full session in which every command succeeds; the remote
listing advertises one branch and the default-branch query output has no
marker on its first line. -/
def WC9 : Nat → CmdResult := fun i =>
  if i = 2 then { exitCode := 0, stdout := "  origin/main", stderr := "" }
  else if i = 3 then { exitCode := 0, stdout := "* remote origin", stderr := "" }
  else okRes

/-- C9 counterexample: with `-y` set, a full successful session still
issues the branch-selection, base-branch, diff-confirmation and
push-confirmation prompts — `-y` does not auto-accept them, refuting the
claim that no other prompt blocks on interactive input. -/
theorem y_flag_still_prompts :
    argsC9.y = true
    ∧ (runSession argsC9 WC9 A0 (some "u") (some "v") sEmpty).1 = true
    ∧ (runSession argsC9 WC9 A0 (some "u") (some "v") sEmpty).2.prompts
        = ["Select branch to merge", "Target branch to merge into", "Show diff before merge?",
           "Push to origin?"] := by decide

/-- C9 (amended): `-y` suppresses exactly two interactions: the
subdirectory prompt (the fixed default `merged_content` is used and shows
up in the history-relocation command) and the merge-conflict pause (a
conflicted merge falls through to the pending state without prompting);
branch selection, base branch, diff confirmation and push confirmation
still prompt interactively. -/
theorem y_flag_scope :
    "Subdirectory to move merged code into"
        ∉ (runSession argsC9 WC9 A0 (some "u") (some "v") sEmpty).2.prompts
    ∧ "git-filter-repo --to-subdirectory-filter merged_content --force"
        ∈ (runSession argsC9 WC9 A0 (some "u") (some "v") sEmpty).2.cmds
    ∧ (perform_mergeM argsYonly WC3 A0 "main" "merged_content" none sInit).1
        = .ok .conflictsPending
    ∧ (perform_mergeM argsYonly WC3 A0 "main" "merged_content" none sInit).2.prompts = []
    ∧ (runSession argsC9 WC9 A0 (some "u") (some "v") sEmpty).2.prompts
        = ["Select branch to merge", "Target branch to merge into", "Show diff before merge?",
           "Push to origin?"] := by decide

/-- Oracle in which the default-branch query fails. -/
def WC6 : Nat → CmdResult := fun _ => { exitCode := 1, stdout := "", stderr := "fatal: no remote" }

/-- C6 counterexample: the remote's output advertises `HEAD branch: main`
on its second line — the position git actually prints it at — yet the
query returns null, because the loop body returns `None` after inspecting
only the first line; and when the command fails the query returns the
hardcoded `"main"` itself instead of null, so the fallback is not left to
callers.  Both refute the claim. -/
theorem default_branch_query_counterexample :
    parseHeadBranch "* remote origin\n  HEAD branch: main" = none
    ∧ (get_head_branchM WC6 MERGE_REPO_DIR sInit).1 = .ok (some "main") := by
  constructor
  · decide
  · rw [get_head_branchM_run]
    norm_num [sInit, WC6]

/-- C6 (amended): the default-branch query never raises; it returns the
advertised name only when the very first line of the command's output
carries the `HEAD branch:` marker, returns null on any other successful
output (it never reads later lines), and on command failure returns the
hardcoded name `"main"` itself rather than null or an exception. -/
theorem default_branch_query_contract (W : Nat → CmdResult) (dir : String) (s : Sys)
    (h : dir ∈ s.fs) :
    (∀ (W' : Nat → CmdResult) (s' : Sys), ∃ v s'', get_head_branchM W' dir s' = (.ok v, s''))
    ∧ ((W s.wIdx).exitCode ≠ 0 → (get_head_branchM W dir s).1 = .ok (some "main"))
    ∧ ((W s.wIdx).exitCode = 0 →
        (get_head_branchM W dir s).1 = .ok (parseHeadBranch (pyStrip (W s.wIdx).stdout)))
    ∧ (∀ output line rest, pySplitlines output = line :: rest →
        strContains line "HEAD branch:" = false → parseHeadBranch output = none) := by
  refine ⟨?_, ?_, ?_, ?_⟩
  · intro W' s'
    rw [get_head_branchM_run]
    by_cases h' : dir ∈ s'.fs
    · rw [dif_pos h']
      exact ⟨_, _, rfl⟩
    · rw [dif_neg h']
      exact ⟨_, _, rfl⟩
  · intro he
    rw [get_head_branchM_run, dif_pos h]
    simp [he]
  · intro he
    rw [get_head_branchM_run, dif_pos h]
    simp [he]
  · intro output line rest hsplit hline
    unfold parseHeadBranch
    rw [hsplit]
    simp [hline]

theorem default_branch_query_contract_witness :
    (get_head_branchM WC6 BASE_REPO_DIR sInit).1 = .ok (some "main")
    ∧ parseHeadBranch "* remote origin\n  Fetch URL: u\n  HEAD branch: main" = none :=
  ⟨(default_branch_query_contract WC6 BASE_REPO_DIR sInit (by decide)).2.1 (by decide),
   (default_branch_query_contract WC6 BASE_REPO_DIR sInit (by decide)).2.2.2
      "* remote origin\n  Fetch URL: u\n  HEAD branch: main" "* remote origin"
      ["  Fetch URL: u", "  HEAD branch: main"] (by decide) (by decide)⟩

/-- Oracle in which the first date lookup fails and later ones succeed. -/
def WC7 : Nat → CmdResult := fun i =>
  if i = 0 then { exitCode := 1, stdout := "", stderr := "unknown revision" }
  else { exitCode := 0, stdout := "2024-01-01 00:00:00 +0000", stderr := "" }

/-- C7: the per-branch date lookup returns (never raises) a mapping with
one entry per requested branch in order; a branch whose own lookup exits
non-zero is mapped to `"N/A"` while every branch whose lookup succeeds is
mapped to its trimmed timestamp — one failure does not disturb the other
entries. -/
theorem commit_dates_isolate_failures (W : Nat → CmdResult) (dir : String) (bs : List String)
    (s : Sys) (h : dir ∈ s.fs) :
    (∃ s', get_commit_datesM W dir bs s = (.ok (expectedDates W s.wIdx bs), s'))
    ∧ (expectedDates W s.wIdx bs).map Prod.fst = bs := by
  obtain ⟨s', hrun, -, -⟩ := get_commit_datesM_run W dir bs s h
  exact ⟨⟨s', hrun⟩, expectedDates_fst W bs s.wIdx⟩

theorem commit_dates_isolate_failures_witness :
    ∃ s', get_commit_datesM WC7 MERGE_REPO_DIR ["dev", "main"] sInit
        = (.ok [("dev", "N/A"), ("main", "2024-01-01 00:00:00 +0000")], s') := by
  obtain ⟨⟨s', hrun⟩, -⟩ :=
    commit_dates_isolate_failures WC7 MERGE_REPO_DIR ["dev", "main"] sInit (by decide)
  have hexp : expectedDates WC7 sInit.wIdx ["dev", "main"]
      = [("dev", "N/A"), ("main", "2024-01-01 00:00:00 +0000")] := by decide
  rw [hexp] at hrun
  exact ⟨s', hrun⟩

/-- C10: branch selection is partial in the branch listing: whenever the
remote-branch listing parses to the empty list, `choose_branch` raises
the out-of-bounds `IndexError` from `branches[0]` while computing the
default choice — before any prompt is issued — so a non-empty listing is
a precondition for it to return a branch name at all. -/
theorem choose_branch_requires_nonempty (W : Nat → CmdResult) (A : Nat → String)
    (dir : String) (s : Sys) (h : dir ∈ s.fs) (he : (W s.wIdx).exitCode = 0)
    (hempty : parseBranches (pyStrip (W s.wIdx).stdout) = []) :
    ∃ s' : Sys, choose_branchM W A dir s = (.error (.exc indexErrorMsg), s')
      ∧ s'.prompts = s.prompts := by
  have hlb := @list_branchesM_run_ok W dir s h he
  set s₁ : Sys := { s with wIdx := s.wIdx + 1, cmds := s.cmds ++ ["git branch -r"] } with hs₁
  have hhb := get_head_branchM_run W dir s₁
  rw [dif_pos (show dir ∈ s₁.fs from h)] at hhb
  refine ⟨{ s₁ with wIdx := s₁.wIdx + 1, cmds := s₁.cmds ++ ["git remote show origin"] },
    ?_, rfl⟩
  unfold choose_branchM mBind
  rw [hlb]
  dsimp only
  rw [hempty, hhb]
  dsimp only [get_commit_datesM, mPure]
  by_cases hX : (W (s.wIdx + 1)).exitCode = 0
  · rw [if_pos hX]
    rcases hp : parseHeadBranch (pyStrip (W (s.wIdx + 1)).stdout) with - | hd'
    · rfl
    · dsimp only
      rw [if_neg (List.not_mem_nil hd')]
      rfl
  · rw [if_neg hX]
    dsimp only
    rw [if_neg (List.not_mem_nil "main")]
    rfl

/-- Oracle in which every command succeeds with empty output, so the
branch listing is empty. -/
def WOkEmpty : Nat → CmdResult := fun _ => okRes

theorem choose_branch_requires_nonempty_witness :
    ∃ s' : Sys, choose_branchM WOkEmpty A0 MERGE_REPO_DIR sInit
        = (.error (.exc indexErrorMsg), s')
      ∧ s'.prompts = sInit.prompts :=
  choose_branch_requires_nonempty WOkEmpty A0 MERGE_REPO_DIR sInit
    (by decide) (by decide) (by decide)
